import Mathlib

/-!
Shallow embedding of the DocuRAG repository: the `RAGPipeline` class from
`src/rag_pipeline.py` and the Streamlit handlers from
`src/News_Research_Tool.py`.  External collaborators (the URL loader, the
file parsers, FAISS and the QA chain) are modelled as explicit environment
parameters; machine state (the temp directory, the on-disk index store) is
passed explicitly.  Errors raised by the Python code become `Except.error`
values carrying the raised message.
-/

namespace DocuRAG

/-- A langchain Document: page content plus string-keyed metadata. -/
structure Document where
  content : String
  metadata : List (String × String)
deriving DecidableEq

/-- A Streamlit UploadedFile: a filename plus the uploaded bytes (modelled as a string). -/
structure UploadedFile where
  name : String
  content : String
deriving DecidableEq

/-- The local filesystem seen by `load_documents`: the files under the temp directory. -/
structure TempFS where
  files : List (String × String)
deriving DecidableEq

/-- A FAISS vectorstore: the chunks it was built from and the embedding model used. -/
structure Index where
  chunks : List Document
  embeddings : String
deriving DecidableEq

/-- The on-disk store locations that FAISS indexes are saved to and loaded from. -/
structure Disk where
  stores : List (String × Index)
deriving DecidableEq

/-- The result dictionary of `RetrievalQAWithSourcesChain`: an answer and a
newline-joined sources string. -/
structure QAResult where
  answer : String
  sources : String
deriving DecidableEq

/-- The `RAGPipeline` object state: the four fields assigned in `__init__`. -/
structure RAGPipeline where
  llm : String
  embeddings : String
  vectorstore_path : String
  vectorstore : Option Index
deriving DecidableEq

/-- The default value of the `vectorstore_path` argument of `RAGPipeline.__init__`. -/
def defaultVectorstorePath : String := "faiss_store_openai"

/-- `RAGPipeline.__init__`: stores llm, embeddings and the path; `vectorstore` starts as `None`. -/
def RAGPipeline.init (llm embeddings vectorstore_path : String) : RAGPipeline :=
  { llm := llm, embeddings := embeddings, vectorstore_path := vectorstore_path,
    vectorstore := none }

/-- Python `str.endswith`, on the character sequences of the two strings. -/
def pyEndsWith (s suffix : String) : Bool :=
  List.isSuffixOf suffix.data s.data

/-- Python `str.strip`: drop whitespace from both ends of the string. -/
def pyStrip (s : String) : String :=
  String.mk (((s.data.dropWhile Char.isWhitespace).reverse.dropWhile Char.isWhitespace).reverse)

/-- Lookup of a key in a metadata dictionary. -/
def metaGet (m : List (String × String)) (key : String) : Option String :=
  (m.find? (fun kv => kv.1 == key)).map (fun kv => kv.2)

/-- Python dictionary assignment `m[key] = v` on a metadata dictionary. -/
def metaSet (m : List (String × String)) (key v : String) : List (String × String) :=
  (key, v) :: m.filter (fun kv => kv.1 != key)

/-- Writing a file: `open(path, "wb")` followed by `f.write(content)`. -/
def fsWrite (fs : TempFS) (path content : String) : TempFS :=
  { files := (path, content) :: fs.files.filter (fun kv => kv.1 != path) }

/-- `os.remove(path)`. -/
def fsRemove (fs : TempFS) (path : String) : TempFS :=
  { files := fs.files.filter (fun kv => kv.1 != path) }

/-- Whether a path currently exists in the temp filesystem. -/
def fsExists (fs : TempFS) (path : String) : Bool :=
  fs.files.any (fun kv => kv.1 == path)

/-- `FAISS.save_local`: persist the index at the given path, replacing any prior index there. -/
def diskSave (d : Disk) (path : String) (idx : Index) : Disk :=
  { stores := (path, idx) :: d.stores.filter (fun kv => kv.1 != path) }

/-- The index currently stored on disk at the given path, if any. -/
def diskGet (d : Disk) (path : String) : Option Index :=
  (d.stores.find? (fun kv => kv.1 == path)).map (fun kv => kv.2)

/-- `os.path.exists` for an index path. -/
def diskExists (d : Disk) (path : String) : Bool :=
  (diskGet d path).isSome

/-- Environment of external document loaders, modelled as black boxes: the
URL loader keyed by the url, and the three file parsers keyed by the bytes
written to the temp file. -/
structure LoadEnv where
  urlLoad : String → List Document
  pdfLoad : String → List Document
  txtLoad : String → List Document
  docxLoad : String → List Document

/-- Environment for `query`: the `RetrievalQAWithSourcesChain` built from the
llm and the retriever of a vectorstore, modelled as a black box from the
question and the loaded index to a result dictionary. -/
structure QueryEnv where
  chainRun : String → Index → QAResult

/-- The documents contributed by the URL branch of `load_documents`:
`if url:` guards against both `None` and the empty string. -/
def urlDocs (env : LoadEnv) (url : Option String) : List Document :=
  match url with
  | some u => if u = "" then [] else env.urlLoad u
  | none => []

/-- The loader-dispatch chain of `load_documents`: `.pdf`, then `.txt`, then
`.docx`, else no loader (the unsupported-format case). -/
def chooseLoader (env : LoadEnv) (name : String) : Option (String → List Document) :=
  if pyEndsWith name ".pdf" then some env.pdfLoad
  else if pyEndsWith name ".txt" then some env.txtLoad
  else if pyEndsWith name ".docx" then some env.docxLoad
  else none

/-- Whether a filename has one of the three supported extensions. -/
def supportedExt (name : String) : Bool :=
  pyEndsWith name ".pdf" || pyEndsWith name ".txt" || pyEndsWith name ".docx"

/-- The raw documents the dispatched loader produces for an uploaded file
(empty when the extension is unsupported). -/
def fileLoaderDocs (env : LoadEnv) (file : UploadedFile) : List Document :=
  match chooseLoader env file.name with
  | some loadf => loadf file.content
  | none => []

/-- `RAGPipeline.load_documents` from src/rag_pipeline.py lines 31 to 74.
Returns the (unchanged) object state, the temp filesystem as it is when the
call returns or raises, and either the loaded documents or the raised error.
The temp file is written before the loader dispatch; `os.remove` runs only
after a successful parse, so the unsupported-format `raise` leaves the temp
file in place. -/
def load_documents (env : LoadEnv) (st : RAGPipeline) (url : Option String)
    (uploaded_file : Option UploadedFile) (fs : TempFS) :
    RAGPipeline × TempFS × Except String (List Document) :=
  let docs := urlDocs env url
  match uploaded_file with
  | none => (st, fs, Except.ok docs)
  | some file =>
      let path := "temp/" ++ file.name
      let fs1 := fsWrite fs path file.content
      match chooseLoader env file.name with
      | none => (st, fs1, Except.error "Unsupported file format")
      | some loadf =>
          let file_docs := (loadf file.content).map
            (fun d => { d with metadata := metaSet d.metadata "source" file.name })
          (st, fsRemove fs1 path, Except.ok (docs ++ file_docs))

/-- The separators the splitter is constructed with in `split_documents`:
paragraph breaks, line breaks, sentence ends, commas, in that order. -/
def ragSeparators : List String := ["\n\n", "\n", ".", ","]

/-- The `chunk_size` the splitter is constructed with in `split_documents`. -/
def ragChunkSize : Nat := 1000

/-- The `chunk_overlap` the splitter is constructed with in `split_documents`. -/
def ragChunkOverlap : Nat := 100

/-- Whether the character sequence `sep` occurs inside the character sequence `cs`. -/
def containsSub (sep : List Char) : List Char → Bool
  | [] => List.isPrefixOf sep []
  | c :: rest => List.isPrefixOf sep (c :: rest) || containsSub sep rest

/-- Whether the separator string occurs anywhere inside the text. -/
def sepOccurs (sep t : String) : Bool :=
  containsSub sep.data t.data

/-- Fuel-driven splitting of a character sequence at every occurrence of a
separator character sequence; the accumulator holds the current piece reversed. -/
def splitCharsFuel (sep : List Char) : Nat → List Char → List Char → List (List Char)
  | 0, cs, acc => [acc.reverse ++ cs]
  | fuel + 1, cs, acc =>
      match cs with
      | [] => [acc.reverse]
      | c :: rest =>
          if List.isPrefixOf sep (c :: rest) then
            acc.reverse :: splitCharsFuel sep fuel ((c :: rest).drop sep.length) []
          else
            splitCharsFuel sep fuel rest (c :: acc)

/-- Splitting a string at every occurrence of a separator string. -/
def strSplitOn (sep t : String) : List String :=
  if sep = "" then [t]
  else (splitCharsFuel sep.data (t.data.length + 1) t.data []).map (fun cs => String.mk cs)

/-- The last `n` characters of a string. -/
def lastChars (n : Nat) (s : String) : String :=
  String.mk (s.data.drop (s.length - n))

/-- Hard cuts: fixed-size windows of at most `chunkSize` characters whose
starts advance by `chunkSize - overlap`, so that consecutive windows share
`overlap` characters. -/
def hardCuts (chunkSize overlap : Nat) (t : String) : List String :=
  if t.length ≤ chunkSize then [t]
  else
    let step := chunkSize - overlap
    let n := (t.length - overlap + step - 1) / step
    (List.range n).map (fun i => String.mk ((t.data.drop (i * step)).take chunkSize))

/-- Greedy merging of consecutive pieces into chunks of at most `chunkSize`
characters; the second argument is the chunk currently being grown. -/
def mergeSmallAux (chunkSize : Nat) : List String → String → List String
  | [], cur => [cur]
  | p :: ps, cur =>
      if cur.length + p.length ≤ chunkSize then mergeSmallAux chunkSize ps (cur ++ p)
      else cur :: mergeSmallAux chunkSize ps p

/-- Greedy merging of consecutive pieces into chunks of at most `chunkSize` characters. -/
def mergeSmall (chunkSize : Nat) : List String → List String
  | [] => []
  | p :: ps => mergeSmallAux chunkSize ps p

/-- Prefix every chunk after the first with the last `overlap` characters of
its predecessor, so that consecutive chunks of one document overlap. -/
def addOverlapAux (overlap : Nat) : String → List String → List String
  | _, [] => []
  | prev, c :: cs => (lastChars overlap prev ++ c) :: addOverlapAux overlap c cs

/-- Apply the overlap between consecutive chunks of one document. -/
def addOverlap (overlap : Nat) : List String → List String
  | [] => []
  | c :: cs => c :: addOverlapAux overlap c cs

/-- Modelled from the spec: langchain's `RecursiveCharacterTextSplitter` is
third-party library code that is not under src/; only its construction
parameters appear there.  The spec describes the algorithm as deterministic
splitting that attempts to break on the separators in priority order,
falling back to hard cuts only when none of these separators occur within
the target chunk size, with the given chunk size and overlap between
consecutive chunks of the same document.  A text short enough to fit in one
chunk is returned whole; otherwise the highest-priority separator occurring
in the text is used, pieces still too long are split with the remaining
separators, and the resulting pieces are merged greedily and overlapped. -/
def recursiveSplit (chunkSize overlap : Nat) : List String → String → List String
  | [], t =>
      if t.length ≤ chunkSize then [t] else hardCuts chunkSize overlap t
  | s :: rest, t =>
      if t.length ≤ chunkSize then [t]
      else if sepOccurs s t then
        addOverlap overlap (mergeSmall chunkSize ((strSplitOn s t).flatMap (fun p =>
          if p.length ≤ chunkSize then [p] else recursiveSplit chunkSize overlap rest p)))
      else
        recursiveSplit chunkSize overlap rest t

/-- `RAGPipeline.split_documents` from src/rag_pipeline.py lines 77 to 92: a
`RecursiveCharacterTextSplitter` with the separators, chunk size and overlap
above, applied to every document; chunks copy the parent metadata.  The
object state is untouched.  The splitter itself is modelled from the spec
(see `recursiveSplit`). -/
def split_documents (st : RAGPipeline) (docs : List Document) :
    RAGPipeline × List Document :=
  (st, docs.flatMap (fun d =>
    (recursiveSplit ragChunkSize ragChunkOverlap ragSeparators d.content).map
      (fun c => { content := c, metadata := d.metadata })))

/-- `FAISS.from_documents`, modelled as a black-box constructor recording its inputs. -/
def FAISS_from_documents (split_docs : List Document) (embeddings : String) : Index :=
  { chunks := split_docs, embeddings := embeddings }

/-- `RAGPipeline.index_documents` from src/rag_pipeline.py lines 95 to 103:
build the vectorstore from the chunks, assign it to the object, and persist
it at `vectorstore_path`. -/
def index_documents (st : RAGPipeline) (split_docs : List Document) (disk : Disk) :
    RAGPipeline × Disk :=
  let vs := FAISS_from_documents split_docs st.embeddings
  let st1 := { st with vectorstore := some vs }
  (st1, diskSave disk st1.vectorstore_path vs)

/-- Modelled from the spec: `FAISS.load_local` is third-party library code
that is not under src/.  The spec says loading fails with a not-found
condition if the path does not exist and that the operation does not create
the path. -/
def FAISS_load_local (disk : Disk) (path : String) : Except String Index :=
  match diskGet disk path with
  | some idx => Except.ok idx
  | none => Except.error "Index not found"

/-- `RAGPipeline.load_index` from src/rag_pipeline.py lines 106 to 118:
deserialize the index at `vectorstore_path`, assign it to the object, and
return it.  When loading raises, the assignment never happens, so the object
state is unchanged; the disk is returned untouched in every case. -/
def load_index (st : RAGPipeline) (disk : Disk) :
    RAGPipeline × Disk × Except String Index :=
  match FAISS_load_local disk st.vectorstore_path with
  | Except.ok idx => ({ st with vectorstore := some idx }, disk, Except.ok idx)
  | Except.error e => (st, disk, Except.error e)

/-- `RAGPipeline.query` from src/rag_pipeline.py lines 121 to 138: raise the
not-initialized error when `self.vectorstore` is `None`, otherwise run the
QA chain over the retriever of the loaded vectorstore.  The object state is
untouched. -/
def query (qenv : QueryEnv) (st : RAGPipeline) (user_query : String) :
    RAGPipeline × Except String QAResult :=
  match st.vectorstore with
  | none => (st, Except.error "Vectorstore not loaded. Call load_index() first.")
  | some vs => (st, Except.ok (qenv.chainRun user_query vs))

/-- The user-visible outcome of the process-click handler in
src/News_Research_Tool.py. -/
inductive ProcessMessage where
  | warnProvideInput
  | errFetchParse
  | errNoText
  | successComplete
  | errException (msg : String)
deriving DecidableEq

/-- Everything observable after one process click: the message shown, the
pipeline operations invoked, and the updated machine state. -/
structure ProcessOutcome where
  message : ProcessMessage
  calls : List String
  st : RAGPipeline
  disk : Disk
  fs : TempFS

/-- The process-click handler from src/News_Research_Tool.py lines 47 to 76:
warn when neither a URL nor a file was supplied; otherwise run load, split
and index in order with the empty-result checks in between, catching any
raised error at the action boundary. -/
def processHandler (env : LoadEnv) (st : RAGPipeline) (disk : Disk) (fs : TempFS)
    (url : String) (uploaded_file : Option UploadedFile) : ProcessOutcome :=
  if url = "" ∧ uploaded_file = none then
    { message := ProcessMessage.warnProvideInput, calls := [], st := st, disk := disk, fs := fs }
  else
    match load_documents env st (some url) uploaded_file fs with
    | (st1, fs1, Except.error e) =>
        { message := ProcessMessage.errException e, calls := ["load_documents"],
          st := st1, disk := disk, fs := fs1 }
    | (st1, fs1, Except.ok docs) =>
        if docs = [] then
          { message := ProcessMessage.errFetchParse, calls := ["load_documents"],
            st := st1, disk := disk, fs := fs1 }
        else
          let res := split_documents st1 docs
          if res.2 = [] then
            { message := ProcessMessage.errNoText,
              calls := ["load_documents", "split_documents"],
              st := res.1, disk := disk, fs := fs1 }
          else
            let res2 := index_documents res.1 res.2 disk
            { message := ProcessMessage.successComplete,
              calls := ["load_documents", "split_documents", "index_documents"],
              st := res2.1, disk := res2.2, fs := fs1 }

/-- The user-visible outcome of the send handler in src/News_Research_Tool.py. -/
inductive SendMessage where
  | warnEnterValidQuestion
  | errNoProcessedData
  | warnNoAnswer
  | showAnswer (r : QAResult)
  | errException (msg : String)
deriving DecidableEq

/-- Everything observable after one send click: the message shown, the
pipeline operations invoked, and the updated pipeline state. -/
structure SendOutcome where
  message : SendMessage
  calls : List String
  st : RAGPipeline

/-- The send handler from src/News_Research_Tool.py lines 100 to 132: warn on
a blank question; surface the missing-index error when the store path does
not exist, before any load or query; otherwise load the index and query,
catching any raised error at the action boundary. -/
def sendHandler (qenv : QueryEnv) (st : RAGPipeline) (disk : Disk)
    (question : String) : SendOutcome :=
  if pyStrip question = "" then
    { message := SendMessage.warnEnterValidQuestion, calls := [], st := st }
  else if diskExists disk st.vectorstore_path = false then
    { message := SendMessage.errNoProcessedData, calls := [], st := st }
  else
    match load_index st disk with
    | (st1, _, Except.error e) =>
        { message := SendMessage.errException e, calls := ["load_index"], st := st1 }
    | (st1, _, Except.ok _) =>
        match query qenv st1 question with
        | (st2, Except.error e) =>
            { message := SendMessage.errException e, calls := ["load_index", "query"],
              st := st2 }
        | (st2, Except.ok r) =>
            if pyStrip r.answer = "" then
              { message := SendMessage.warnNoAnswer, calls := ["load_index", "query"],
                st := st2 }
            else
              { message := SendMessage.showAnswer r, calls := ["load_index", "query"],
                st := st2 }

/-- The whole machine state a session acts on: the pipeline object, the disk
and the temp filesystem. -/
structure World where
  st : RAGPipeline
  disk : Disk
  fs : TempFS

/-- One pipeline method call inside a session, with the environments it needs. -/
inductive PipelineCall where
  | loadDocumentsC (env : LoadEnv) (url : Option String) (file : Option UploadedFile)
  | splitDocumentsC (docs : List Document)
  | indexDocumentsC (chunks : List Document)
  | loadIndexC
  | queryC (qenv : QueryEnv) (q : String)

/-- Whether a call is one of the two operations that assign the in-memory
vectorstore. -/
def PipelineCall.setsIndex : PipelineCall → Bool
  | PipelineCall.indexDocumentsC _ => true
  | PipelineCall.loadIndexC => true
  | _ => false

/-- The effect of one pipeline call on the machine state (return values and
raised errors are dropped; raising leaves the state as the method left it). -/
def stepCall (w : World) : PipelineCall → World
  | PipelineCall.loadDocumentsC env url file =>
      let r := load_documents env w.st url file w.fs
      { st := r.1, disk := w.disk, fs := r.2.1 }
  | PipelineCall.splitDocumentsC docs =>
      { st := (split_documents w.st docs).1, disk := w.disk, fs := w.fs }
  | PipelineCall.indexDocumentsC chunks =>
      let r := index_documents w.st chunks w.disk
      { st := r.1, disk := r.2, fs := w.fs }
  | PipelineCall.loadIndexC =>
      let r := load_index w.st w.disk
      { st := r.1, disk := r.2.1, fs := w.fs }
  | PipelineCall.queryC qenv q =>
      { st := (query qenv w.st q).1, disk := w.disk, fs := w.fs }

/-- A session: a sequence of pipeline calls run from a starting machine state. -/
def runSession (w : World) (calls : List PipelineCall) : World :=
  calls.foldl stepCall w

/-- A loader environment whose loaders all return nothing. -/
def envEmpty : LoadEnv :=
  { urlLoad := fun _ => [], pdfLoad := fun _ => [],
    txtLoad := fun _ => [], docxLoad := fun _ => [] }

/-- A concrete loader environment: the URL loader tags documents with the
url, the txt parser tags them with the temp path it read from. -/
def env0 : LoadEnv :=
  { urlLoad := fun u => [{ content := "web text", metadata := [("source", u)] }]
    pdfLoad := fun _ => []
    txtLoad := fun c => [{ content := c, metadata := [("source", "temp/a.txt")] }]
    docxLoad := fun _ => [] }

/-- A concrete QA chain environment. -/
def qenv0 : QueryEnv :=
  { chainRun := fun _ _ => { answer := "the answer", sources := "a.txt" } }

/-- A freshly constructed pipeline object. -/
def pipe0 : RAGPipeline := RAGPipeline.init "llm" "embeddings" defaultVectorstorePath

/-- A concrete document. -/
def doc0 : Document := { content := "hello world", metadata := [("source", "a.txt")] }

/-- An upload with an unsupported extension. -/
def csvFile : UploadedFile := { name := "notes.csv", content := "a,b,c" }

/-- A second upload with an unsupported extension. -/
def mdFile : UploadedFile := { name := "b.md", content := "x" }

/-- An upload with a supported extension. -/
def txtFile : UploadedFile := { name := "a.txt", content := "hello" }

/-- An empty temp filesystem. -/
def fs0 : TempFS := { files := [] }

/-- An empty disk. -/
def disk0 : Disk := { stores := [] }

/-- A fresh machine state. -/
def world0 : World := { st := pipe0, disk := disk0, fs := fs0 }

/-- A 1001-character text containing none of the splitter separators. -/
def bigText : String := String.mk (List.replicate 1001 'a')

lemma load_documents_fst (env : LoadEnv) (st : RAGPipeline) (url : Option String)
    (uploaded_file : Option UploadedFile) (fs : TempFS) :
    (load_documents env st url uploaded_file fs).1 = st := by
  unfold load_documents
  cases uploaded_file with
  | none => rfl
  | some file => cases h : chooseLoader env file.name <;> simp [h]

lemma split_documents_fst (st : RAGPipeline) (docs : List Document) :
    (split_documents st docs).1 = st := rfl

lemma query_fst (qenv : QueryEnv) (st : RAGPipeline) (q : String) :
    (query qenv st q).1 = st := by
  unfold query
  cases st.vectorstore <;> rfl

lemma chooseLoader_eq_none (env : LoadEnv) (name : String)
    (h : supportedExt name = false) : chooseLoader env name = none := by
  unfold supportedExt at h
  rw [Bool.or_eq_false_iff, Bool.or_eq_false_iff] at h
  obtain ⟨⟨h1, h2⟩, h3⟩ := h
  simp [chooseLoader, h1, h2, h3]

lemma load_documents_unsupported (env : LoadEnv) (st : RAGPipeline) (url : Option String)
    (file : UploadedFile) (fs : TempFS) (h : supportedExt file.name = false) :
    load_documents env st url (some file) fs =
      (st, fsWrite fs ("temp/" ++ file.name) file.content,
       Except.error "Unsupported file format") := by
  have hc := chooseLoader_eq_none env file.name h
  simp [load_documents, hc]

lemma load_documents_supported (env : LoadEnv) (st : RAGPipeline) (url : Option String)
    (file : UploadedFile) (fs : TempFS) (h : supportedExt file.name = true) :
    load_documents env st url (some file) fs =
      (st, fsRemove (fsWrite fs ("temp/" ++ file.name) file.content) ("temp/" ++ file.name),
       Except.ok (urlDocs env url ++ (fileLoaderDocs env file).map
         (fun d => { d with metadata := metaSet d.metadata "source" file.name }))) := by
  by_cases h1 : pyEndsWith file.name ".pdf" = true
  · simp [load_documents, chooseLoader, fileLoaderDocs, h1]
  · by_cases h2 : pyEndsWith file.name ".txt" = true
    · simp [load_documents, chooseLoader, fileLoaderDocs, h1, h2]
    · by_cases h3 : pyEndsWith file.name ".docx" = true
      · simp [load_documents, chooseLoader, fileLoaderDocs, h1, h2, h3]
      · exfalso
        unfold supportedExt at h
        simp [h1, h2, h3] at h

lemma metaGet_metaSet (m : List (String × String)) (k v : String) :
    metaGet (metaSet m k v) k = some v := by
  unfold metaGet metaSet
  rw [List.find?_cons_of_pos _ (by simp)]
  rfl

lemma fsExists_fsWrite (fs : TempFS) (p c : String) :
    fsExists (fsWrite fs p c) p = true := by
  simp [fsExists, fsWrite]

lemma any_filter_keep_ne (l : List (String × String)) (p : String) :
    (l.filter (fun kv => kv.1 != p)).any (fun kv => kv.1 == p) = false := by
  induction l with
  | nil => rfl
  | cons kv rest ih =>
      by_cases h : kv.1 = p
      · simp [List.filter_cons, h, ih]
      · simp [List.filter_cons, h, ih]

lemma fsExists_fsRemove (fs : TempFS) (p : String) :
    fsExists (fsRemove fs p) p = false := by
  simp [fsExists, fsRemove, any_filter_keep_ne]

lemma diskGet_eq_none (disk : Disk) (p : String) (h : diskExists disk p = false) :
    diskGet disk p = none := by
  unfold diskExists at h
  cases hd : diskGet disk p with
  | none => rfl
  | some i => rw [hd] at h; simp at h

lemma stepCall_st_eq (w : World) (c : PipelineCall)
    (hc : PipelineCall.setsIndex c = false) : (stepCall w c).st = w.st := by
  cases c with
  | loadDocumentsC env url file => simp [stepCall, load_documents_fst]
  | splitDocumentsC docs => simp [stepCall, split_documents_fst]
  | indexDocumentsC chunks => simp [PipelineCall.setsIndex] at hc
  | loadIndexC => simp [PipelineCall.setsIndex] at hc
  | queryC qenv q => simp [stepCall, query_fst]

lemma runSession_vectorstore_none (calls : List PipelineCall) :
    ∀ w : World, w.st.vectorstore = none →
      (∀ c ∈ calls, PipelineCall.setsIndex c = false) →
      (runSession w calls).st.vectorstore = none := by
  induction calls with
  | nil => intro w hw _; exact hw
  | cons c cs ih =>
      intro w hw hall
      have h1 : (stepCall w c).st.vectorstore = none := by
        rw [stepCall_st_eq w c (hall c (List.mem_cons_self c cs))]; exact hw
      have h2 : ∀ d ∈ cs, PipelineCall.setsIndex d = false :=
        fun d hd => hall d (List.mem_cons_of_mem c hd)
      have hstep : runSession w (c :: cs) = runSession (stepCall w c) cs := rfl
      rw [hstep]
      exact ih (stepCall w c) h1 h2

lemma recursiveSplit_small (chunkSize overlap : Nat) (seps : List String) (t : String)
    (h : t.length ≤ chunkSize) :
    recursiveSplit chunkSize overlap seps t = [t] := by
  cases seps <;> simp [recursiveSplit, h]

lemma recursiveSplit_nil (chunkSize overlap : Nat) (t : String)
    (hlen : ¬ t.length ≤ chunkSize) :
    recursiveSplit chunkSize overlap [] t = hardCuts chunkSize overlap t := by
  simp [recursiveSplit, hlen]

lemma recursiveSplit_cons_nosep (chunkSize overlap : Nat) (s : String)
    (rest : List String) (t : String) (hlen : ¬ t.length ≤ chunkSize)
    (hs : sepOccurs s t = false) :
    recursiveSplit chunkSize overlap (s :: rest) t =
      recursiveSplit chunkSize overlap rest t := by
  rw [recursiveSplit]
  simp [hlen, hs]

/-- Claim C1, counterexample: calling load_documents with an upload named
notes.csv fails with the unsupported-format error, yet on return the
temporary file temp/notes.csv still exists — cleanup is not performed on
the failure path, contrary to the claim. -/
theorem C1_temp_cleanup_cex :
    (load_documents env0 pipe0 none (some csvFile) fs0).2.2 =
        Except.error "Unsupported file format" ∧
    fsExists (load_documents env0 pipe0 none (some csvFile) fs0).2.1
        "temp/notes.csv" = true :=
  ⟨rfl, rfl⟩

/-- Claim C1 (amended): for an uploaded file with an unsupported extension,
load_documents fails with the unsupported-format error but the temporary
file written for parsing is left on disk; the temp file is removed only on
the success path of a supported extension. -/
theorem C1_temp_cleanup_amended :
    (∀ env st url file fs, supportedExt (UploadedFile.name file) = false →
      (load_documents env st url (some file) fs).2.2 =
          Except.error "Unsupported file format" ∧
      fsExists (load_documents env st url (some file) fs).2.1
          ("temp/" ++ UploadedFile.name file) = true) ∧
    (∀ env st url file fs, supportedExt (UploadedFile.name file) = true →
      fsExists (load_documents env st url (some file) fs).2.1
          ("temp/" ++ UploadedFile.name file) = false) := by
  constructor
  · intro env st url file fs h
    rw [load_documents_unsupported env st url file fs h]
    exact ⟨rfl, fsExists_fsWrite fs _ _⟩
  · intro env st url file fs h
    rw [load_documents_supported env st url file fs h]
    exact fsExists_fsRemove _ _

/-- Claim C1, witness for the amended theorem at concrete inputs. -/
theorem C1_temp_cleanup_witness :
    ((load_documents env0 pipe0 none (some mdFile) fs0).2.2 =
        Except.error "Unsupported file format" ∧
     fsExists (load_documents env0 pipe0 none (some mdFile) fs0).2.1
        ("temp/" ++ UploadedFile.name mdFile) = true) ∧
    fsExists (load_documents env0 pipe0 none (some txtFile) fs0).2.1
        ("temp/" ++ UploadedFile.name txtFile) = false :=
  ⟨C1_temp_cleanup_amended.1 env0 pipe0 none mdFile fs0 (by decide),
   C1_temp_cleanup_amended.2 env0 pipe0 none txtFile fs0 (by decide)⟩

/-- Claim C2, counterexample: in a session that calls index_documents and
never calls load_index, a subsequent query succeeds instead of failing with
the not-initialized error, because index_documents also assigns the
in-memory vectorstore. -/
theorem C2_uninitialized_query_cex :
    (query qenv0 (runSession world0 [PipelineCall.indexDocumentsC [doc0]]).st "q").2 =
        Except.ok { answer := "the answer", sources := "a.txt" } ∧
    (query qenv0 (runSession world0 [PipelineCall.indexDocumentsC [doc0]]).st "q").2 ≠
        Except.error "Vectorstore not loaded. Call load_index() first." := by
  refine ⟨rfl, ?_⟩
  intro h
  rw [show (query qenv0 (runSession world0 [PipelineCall.indexDocumentsC [doc0]]).st "q").2 =
      Except.ok { answer := "the answer", sources := "a.txt" } from rfl] at h
  exact Except.noConfusion h

/-- Claim C2 (amended): query fails with the not-initialized error exactly
when no vectorstore is in memory; a fresh pipeline holds none, and a session
that performs neither load_index nor index_documents keeps it none, so every
query there fails with that error — but index_documents also assigns the
in-memory vectorstore, so load_index is not the only call enabling query. -/
theorem C2_uninitialized_query_amended :
    (∀ llm embeddings path, (RAGPipeline.init llm embeddings path).vectorstore = none) ∧
    (∀ qenv st q, ((query qenv st q).2 =
        Except.error "Vectorstore not loaded. Call load_index() first." ↔
      RAGPipeline.vectorstore st = none)) ∧
    (∀ (w : World) (calls : List PipelineCall), (World.st w).vectorstore = none →
      (∀ c ∈ calls, PipelineCall.setsIndex c = false) →
      ∀ qenv q, (query qenv (runSession w calls).st q).2 =
          Except.error "Vectorstore not loaded. Call load_index() first.") := by
  refine ⟨fun _ _ _ => rfl, ?_, ?_⟩
  · intro qenv st q
    cases hv : st.vectorstore with
    | none => simp [query, hv]
    | some vs => simp [query, hv]
  · intro w calls hw hall qenv q
    have hn := runSession_vectorstore_none calls w hw hall
    simp [query, hn]

/-- Claim C2, witness for the amended theorem: a session consisting of one
split_documents call leaves query failing with the not-initialized error. -/
theorem C2_uninitialized_query_witness :
    (query qenv0 (runSession world0 [PipelineCall.splitDocumentsC []]).st "q").2 =
        Except.error "Vectorstore not loaded. Call load_index() first." :=
  C2_uninitialized_query_amended.2.2 world0 [PipelineCall.splitDocumentsC []] rfl
    (by intro c hc; simp at hc; subst hc; rfl) qenv0 "q"

/-- Claim C3: split_documents is deterministic in the documents alone; the
splitter is constructed with the separators paragraph break, line break,
sentence end, comma, in that order, with chunk size 1000 and overlap 100; a
text that fits in one chunk is returned whole; and the hard-cut fallback is
taken on texts longer than the chunk size in which none of the separators
occur. -/
theorem C3_split_config :
    ragSeparators = ["\n\n", "\n", ".", ","] ∧
    ragChunkSize = 1000 ∧
    ragChunkOverlap = 100 ∧
    (∀ st₁ st₂ docs, (split_documents st₁ docs).2 = (split_documents st₂ docs).2) ∧
    (∀ t : String, t.length ≤ ragChunkSize →
      recursiveSplit ragChunkSize ragChunkOverlap ragSeparators t = [t]) ∧
    (∀ t : String, ragChunkSize < t.length →
      (∀ s ∈ ragSeparators, sepOccurs s t = false) →
      recursiveSplit ragChunkSize ragChunkOverlap ragSeparators t =
        hardCuts ragChunkSize ragChunkOverlap t) := by
  refine ⟨rfl, rfl, rfl, fun st₁ st₂ docs => rfl, ?_, ?_⟩
  · intro t h
    exact recursiveSplit_small _ _ _ _ h
  · intro t hlen hno
    have hle : ¬ t.length ≤ ragChunkSize := Nat.not_le.mpr hlen
    have h1 : sepOccurs "\n\n" t = false := hno "\n\n" (by simp [ragSeparators])
    have h2 : sepOccurs "\n" t = false := hno "\n" (by simp [ragSeparators])
    have h3 : sepOccurs "." t = false := hno "." (by simp [ragSeparators])
    have h4 : sepOccurs "," t = false := hno "," (by simp [ragSeparators])
    rw [show ragSeparators = ["\n\n", "\n", ".", ","] from rfl,
        recursiveSplit_cons_nosep _ _ _ _ _ hle h1,
        recursiveSplit_cons_nosep _ _ _ _ _ hle h2,
        recursiveSplit_cons_nosep _ _ _ _ _ hle h3,
        recursiveSplit_cons_nosep _ _ _ _ _ hle h4,
        recursiveSplit_nil _ _ _ hle]

set_option maxRecDepth 8192 in
/-- Claim C3, witness at concrete inputs: a short text splits to itself, and
a 1001-character separator-free text is hard cut. -/
theorem C3_split_config_witness :
    recursiveSplit ragChunkSize ragChunkOverlap ragSeparators "hi" = ["hi"] ∧
    recursiveSplit ragChunkSize ragChunkOverlap ragSeparators bigText =
      hardCuts ragChunkSize ragChunkOverlap bigText :=
  ⟨C3_split_config.2.2.2.2.1 "hi" (by decide),
   C3_split_config.2.2.2.2.2 bigText (by decide) (by decide)⟩

/-- Claim C4: a document whose content is at most 1000 characters splits
into exactly one chunk, equal to the document (same content and metadata). -/
theorem C4_small_doc_single_chunk (st : RAGPipeline) (d : Document)
    (h : d.content.length ≤ 1000) :
    (split_documents st [d]).2 = [d] := by
  have hs : recursiveSplit ragChunkSize ragChunkOverlap ragSeparators d.content =
      [d.content] := recursiveSplit_small _ _ _ _ h
  simp [split_documents, hs]

/-- Claim C4, witness at a concrete document. -/
theorem C4_small_doc_single_chunk_witness :
    (split_documents pipe0 [doc0]).2 = [doc0] :=
  C4_small_doc_single_chunk pipe0 doc0 (by decide)

/-- Claim C5: for a supported upload whose parser yields at least one
document, load_documents (called with the file alone) returns a non-empty
list, and every returned document carries the uploaded filename as its
source metadata, overwriting the loader-assigned value. -/
theorem C5_source_overwrite (env : LoadEnv) (st : RAGPipeline) (fs : TempFS)
    (file : UploadedFile) (hsupp : supportedExt (UploadedFile.name file) = true)
    (hparse : fileLoaderDocs env file ≠ []) :
    ∃ docs, (load_documents env st none (some file) fs).2.2 = Except.ok docs ∧
      docs ≠ [] ∧
      ∀ d ∈ docs, metaGet (Document.metadata d) "source" =
        some (UploadedFile.name file) := by
  rw [load_documents_supported env st none file fs hsupp]
  refine ⟨_, rfl, ?_, ?_⟩
  · simpa [urlDocs] using hparse
  · intro d hd
    simp [urlDocs] at hd
    obtain ⟨d0, hd0, rfl⟩ := hd
    exact metaGet_metaSet d0.metadata "source" file.name

/-- Claim C5, witness at a concrete txt upload. -/
theorem C5_source_overwrite_witness :
    ∃ docs, (load_documents env0 pipe0 none (some txtFile) fs0).2.2 = Except.ok docs ∧
      docs ≠ [] ∧
      ∀ d ∈ docs, metaGet (Document.metadata d) "source" =
        some (UploadedFile.name txtFile) :=
  C5_source_overwrite env0 pipe0 fs0 txtFile (by decide) (by decide)

/-- Claim C6: with neither input, with an empty url string, with a url whose
fetch yields nothing, or with a supported file whose parse yields nothing,
load_documents returns the empty list without failing. -/
theorem C6_empty_input_ok :
    (∀ env st fs, load_documents env st none none fs = (st, fs, Except.ok [])) ∧
    (∀ env st fs, load_documents env st (some "") none fs = (st, fs, Except.ok [])) ∧
    (∀ env st fs u, u ≠ "" → LoadEnv.urlLoad env u = [] →
      load_documents env st (some u) none fs = (st, fs, Except.ok [])) ∧
    (∀ env st fs file, supportedExt (UploadedFile.name file) = true →
      fileLoaderDocs env file = [] →
      (load_documents env st none (some file) fs).2.2 = Except.ok []) := by
  refine ⟨fun env st fs => rfl, fun env st fs => rfl, ?_, ?_⟩
  · intro env st fs u hu hload
    simp [load_documents, urlDocs, hu, hload]
  · intro env st fs file hsupp hload
    rw [load_documents_supported env st none file fs hsupp]
    simp [urlDocs, hload]

/-- Claim C6, witness at concrete inputs with empty loaders. -/
theorem C6_empty_input_ok_witness :
    load_documents envEmpty pipe0 (some "http") none fs0 = (pipe0, fs0, Except.ok []) ∧
    (load_documents envEmpty pipe0 none (some txtFile) fs0).2.2 = Except.ok [] :=
  ⟨C6_empty_input_ok.2.2.1 envEmpty pipe0 fs0 "http" (by decide) rfl,
   C6_empty_input_ok.2.2.2 envEmpty pipe0 fs0 txtFile (by decide) rfl⟩

/-- Claim C7: when the fixed on-disk path does not exist, load_index fails
with the not-found error, leaves the pipeline object untouched (so no
partially-initialized index is ever returned) and does not create the path;
and the send handler checks path existence first and surfaces the
missing-index message without invoking load_index or query. -/
theorem C7_missing_index :
    (∀ st disk, diskExists disk (RAGPipeline.vectorstore_path st) = false →
      load_index st disk = (st, disk, Except.error "Index not found")) ∧
    (∀ qenv st disk q, pyStrip q ≠ "" →
      diskExists disk (RAGPipeline.vectorstore_path st) = false →
      sendHandler qenv st disk q =
        { message := SendMessage.errNoProcessedData, calls := [], st := st }) := by
  constructor
  · intro st disk h
    have hg := diskGet_eq_none disk st.vectorstore_path h
    simp [load_index, FAISS_load_local, hg]
  · intro qenv st disk q hq h
    simp [sendHandler, hq, h]

/-- Claim C7, witness on an empty disk. -/
theorem C7_missing_index_witness :
    load_index pipe0 disk0 = (pipe0, disk0, Except.error "Index not found") ∧
    sendHandler qenv0 pipe0 disk0 "hi" =
      { message := SendMessage.errNoProcessedData, calls := [], st := pipe0 } :=
  ⟨C7_missing_index.1 pipe0 disk0 rfl,
   C7_missing_index.2 qenv0 pipe0 disk0 "hi" (by decide) rfl⟩

/-- Claim C8: a process click with no URL and no file is answered with the
input warning and invokes no pipeline operation; a send click with an empty
or whitespace-only question is answered with the question warning and
invokes no pipeline operation. -/
theorem C8_input_errors :
    (∀ env st disk fs, processHandler env st disk fs "" none =
      { message := ProcessMessage.warnProvideInput, calls := [], st := st,
        disk := disk, fs := fs }) ∧
    (∀ qenv st disk q, pyStrip q = "" →
      sendHandler qenv st disk q =
        { message := SendMessage.warnEnterValidQuestion, calls := [], st := st }) := by
  constructor
  · intro env st disk fs
    simp [processHandler]
  · intro qenv st disk q hq
    simp [sendHandler, hq]

/-- Claim C8, witness at a whitespace-only question. -/
theorem C8_input_errors_witness :
    sendHandler qenv0 pipe0 disk0 "   " =
      { message := SendMessage.warnEnterValidQuestion, calls := [], st := pipe0 } :=
  C8_input_errors.2 qenv0 pipe0 disk0 "   " (by decide)

/-- Claim C9: with both a url and a supported upload, the returned list is
the url-derived documents followed by the file-derived documents in that
order, and the source overwrite is applied only to the file-derived
documents — the url-derived documents appear exactly as the url loader
produced them. -/
theorem C9_url_then_file (env : LoadEnv) (st : RAGPipeline) (fs : TempFS)
    (u : String) (file : UploadedFile) (hu : u ≠ "")
    (hsupp : supportedExt (UploadedFile.name file) = true) :
    (load_documents env st (some u) (some file) fs).2.2 =
      Except.ok (LoadEnv.urlLoad env u ++ (fileLoaderDocs env file).map
        (fun d =>
          { d with metadata := metaSet (Document.metadata d) "source" (UploadedFile.name file) })) := by
  rw [load_documents_supported env st (some u) file fs hsupp]
  simp [urlDocs, hu]

/-- Claim C9, witness at a concrete url and txt upload. -/
theorem C9_url_then_file_witness :
    (load_documents env0 pipe0 (some "http://x") (some txtFile) fs0).2.2 =
      Except.ok (LoadEnv.urlLoad env0 "http://x" ++ (fileLoaderDocs env0 txtFile).map
        (fun d =>
          { d with metadata := metaSet (Document.metadata d) "source" (UploadedFile.name txtFile) })) :=
  C9_url_then_file env0 pipe0 fs0 "http://x" txtFile (by decide) (by decide)

/-- Claim C10: load_documents and split_documents return the pipeline
object unchanged (hence vectorstore, vectorstore_path, llm and embeddings
are all untouched); query leaves it unchanged as well; and no pipeline call
other than index_documents and load_index changes the object, so only those
two ever assign the in-memory vectorstore. -/
theorem C10_frame :
    (∀ env st url file fs, (load_documents env st url file fs).1 = st) ∧
    (∀ st docs, (split_documents st docs).1 = st) ∧
    (∀ qenv st q, (query qenv st q).1 = st) ∧
    (∀ (w : World) (c : PipelineCall), PipelineCall.setsIndex c = false →
      (stepCall w c).st = World.st w) :=
  ⟨load_documents_fst, split_documents_fst, query_fst, stepCall_st_eq⟩

/-- Claim C10, witness: a query call leaves the object unchanged. -/
theorem C10_frame_witness :
    (stepCall world0 (PipelineCall.queryC qenv0 "q")).st = World.st world0 :=
  C10_frame.2.2.2 world0 (PipelineCall.queryC qenv0 "q") rfl

end DocuRAG
